import Mathlib

/-!
Shallow embedding of `ban/core/versioning.py`: the versioning/audit core
(optimistic concurrency, snapshot store, diff engine, redirect registry,
flag registry).  Database tables are modelled as lists of rows inside a
single state record `St`; mutating peewee operations become pure functions
`St → St` (or `Except e St` when the Python code can raise); the ambient
wall clock (`utcnow`) is a counter in the state that increases at each call.
-/

set_option maxRecDepth 4096

/-- A row of the `Version` table (one historical snapshot of an entity).
Fields mirror `Version`: `model_name`, `model_pk`, `sequential`, `data`,
and the `period` date-range split into its lower bound and optional upper
bound. -/
structure Snap where
  model_name : String
  model_pk : Nat
  sequential : Nat
  data : List (String × String)
  periodLo : Nat
  periodHi : Option Nat
deriving DecidableEq

/-- A row of the `Diff` table: optional old/new snapshot, the computed
field-level `diff`, `insee` partition key and creation time. In the diff
map a value of `none` stands for a field absent on that side. -/
structure DiffRec where
  old : Option Snap
  new : Option Snap
  diff : List (String × (Option String × Option String))
  insee : String
  created_at : Nat
deriving DecidableEq

/-- A row of the `Redirect` table, composite key
`(model_name, identifier, value, model_id)`. -/
structure RedirectRow where
  model_name : String
  identifier : String
  value : String
  model_id : String
deriving DecidableEq

/-- A persisted domain-entity row: primary key, resource (= model) name,
resource id string and the serialized attribute map. -/
structure ERow where
  pk : Nat
  model_name : String
  id : String
  attrs : List (String × String)
deriving DecidableEq

/-- A row of the `Flag` table: snapshot reference, client, session,
creation time. -/
structure FlagRow where
  version : Nat
  client : Nat
  session : Nat
  created_at : Nat
deriving DecidableEq

/-- The ambient session from `context.get('session')`: its pk, the bound
client (if any) and the contributor type (if any). -/
structure SessRec where
  pk : Nat
  client : Option Nat
  contributor_type : Option String
deriving DecidableEq

/-- The whole database plus ambient state: wall clock, next auto primary
key, all tables, the `BaseVersioned.registry` (model name, lowercased, to
its declared alternate-identifier field names) and the `Diff.ACTIVE`
toggle. -/
structure St where
  clock : Nat
  nextPk : Nat
  versions : List Snap
  diffs : List DiffRec
  redirects : List RedirectRow
  entities : List ERow
  flags : List FlagRow
  registry : List (String × List String)
  diffActive : Bool
deriving DecidableEq

/-- An in-memory `Versioned` model instance: pk (none before the row is
persisted), resource name, resource id, `municipality.insee`, version,
audit metadata, the `_locked_version` attribute (none when the attribute
has never been assigned) and the serialized data fields (`as_version`). -/
structure VEntity where
  pk : Option Nat
  resource : String
  idStr : String
  insee : String
  version : Nat
  created_at : Option Nat
  created_by : Option Nat
  modified_at : Option Nat
  modified_by : Option Nat
  locked : Option Nat
  dataFields : List (String × String)
deriving DecidableEq

/-- Errors a `Versioned.save` can raise: `ForcedVersionError` from
`check_version`, a `TypeError` when `_locked_version` was never set
(`None + 1`), the unique-index violation on
`(model_name, model_pk, sequential)` and the `AttributeError` from
`old.close_period` when the previous snapshot is missing. -/
inductive SaveErr
  | forcedVersion
  | typeError
  | integrityError
  | attributeError
deriving DecidableEq

/-- `getattr(row, key)` on a serialized entity row: the resource `id` or a
field of the attribute map. -/
def attrOf (e : ERow) (k : String) : Option String :=
  if k = "id" then some e.id else e.attrs.lookup k

/-- `Versioned.lock_version`: a not-yet-persisted instance gets
`version = 1` and baseline 0; a persisted one captures its current
version as the baseline.  Writes `_locked_version` directly. -/
def Versioned.lock_version (e : VEntity) : VEntity :=
  match e.pk with
  | none => { e with version := 1, locked := some 0 }
  | some _ => { e with locked := some e.version }

/-- The `locked_version` property setter: asserts the attribute was never
set before (`locked_version is read only`). -/
def Versioned.set_locked_version (e : VEntity) (v : Nat) : Except String VEntity :=
  if e.locked.isSome then .error "locked_version is read only"
  else .ok { e with locked := some v }

/-- `Versioned.increment_version`. -/
def Versioned.increment_version (e : VEntity) : VEntity :=
  { e with version := e.version + 1 }

/-- Constructing a fresh instance: `__init__` runs `prepared`, hence
`lock_version`, on an instance with no pk. -/
def Versioned.newEntity (resource idStr insee : String)
    (data : List (String × String)) : VEntity :=
  Versioned.lock_version
    { pk := none, resource := resource, idStr := idStr, insee := insee,
      version := 1, created_at := none, created_by := none,
      modified_at := none, modified_by := none, locked := none,
      dataFields := data }

/-- A fetched instance: peewee instantiates the model from the stored row
(pk set, stored version) and then `prepared` runs `lock_version`. -/
def Versioned.fetchedEntity (pk : Nat) (resource idStr insee : String)
    (version : Nat) (created_at created_by modified_at modified_by : Option Nat)
    (data : List (String × String)) : VEntity :=
  Versioned.lock_version
    { pk := some pk, resource := resource, idStr := idStr, insee := insee,
      version := version, created_at := created_at, created_by := created_by,
      modified_at := modified_at, modified_by := modified_by, locked := none,
      dataFields := data }

/-- `Versioned.update_meta`: when an ambient session exists, set
`created_by` if unset and always set `modified_by`; set `created_at` if
unset and always set `modified_at` to `now`. -/
def Versioned.update_meta (session : Option Nat) (now : Nat) (e : VEntity) : VEntity :=
  let e := match session with
    | some s =>
        { e with
          created_by := if e.created_by = none then some s else e.created_by,
          modified_by := some s }
    | none => e
  let e := if e.created_at = none then { e with created_at := some now } else e
  { e with modified_at := some now }

/-- `Version.create`: inserts a snapshot row; the unique index on
`(model_name, model_pk, sequential)` rejects duplicates. -/
def Version.create (st : St) (s : Snap) : Except SaveErr St :=
  if st.versions.any (fun v =>
      v.model_name == s.model_name && v.model_pk == s.model_pk &&
      v.sequential == s.sequential)
  then .error .integrityError
  else .ok { st with versions := st.versions ++ [s] }

/-- `Version.close_period` followed by `save()`: the stored row matching
the snapshot's unique key gets its period upper bound replaced. -/
def Version.close_period_db (st : St) (o : Snap) (bound : Nat) : St :=
  { st with versions := st.versions.map (fun v =>
      if v.model_name == o.model_name && v.model_pk == o.model_pk &&
         v.sequential == o.sequential
      then { v with periodHi := some bound } else v) }

/-- The `Versioned.versions` property: snapshots of this resource/pk,
ordered by `sequential` (SQL `ORDER BY`, modelled by a stable insertion
sort on `sequential`). -/
def Versioned.versionsOf (st : St) (mn : String) (mpk : Nat) : List Snap :=
  List.insertionSort (fun a b => a.sequential ≤ b.sequential)
    (st.versions.filter (fun v => v.model_name == mn && v.model_pk == mpk))

/-- `Versioned.load_version` with an integer `ref`: first snapshot of the
entity with `sequential == ref`. -/
def Versioned.load_version (st : St) (e : VEntity) (ref : Nat) : Option Snap :=
  ((Versioned.versionsOf st e.resource (e.pk.getD 0)).filter
    (fun v => v.sequential == ref)).head?

/-- Python truthiness of a diff value: `None` and the empty string are
falsy. -/
def truthy : Option String → Bool
  | none => false
  | some s => s ≠ ""

/-- Modelled from the spec: `make_diff` lives in `ban/utils`, which is not
part of the sources; per the spec, for every field present in either map
an `old`/`new` pair is emitted iff the two values are not equal, unchanged
fields are omitted, and a field present on one side only is an
absent-to-value transition (`none` on the missing side). -/
def make_diff (old new : List (String × String)) :
    List (String × (Option String × Option String)) :=
  ((old.map Prod.fst ++ new.map Prod.fst).dedup).filterMap fun k =>
    if old.lookup k = new.lookup k then none
    else some (k, (old.lookup k, new.lookup k))

/-- The identifier/value pairs for which `Redirect.from_diff` performs an
`add`: declared identifier fields of the new snapshot's model that appear
in the diff with truthy old and new values, paired with the old value. -/
def Redirect.from_diff_adds (st : St) (d : DiffRec) : List (String × String) :=
  match d.new, d.old with
  | some newS, some _ =>
    let idents := ((st.registry.lookup newS.model_name).getD []).filter
      (fun i => (d.diff.lookup i).isSome)
    idents.filterMap fun i =>
      match d.diff.lookup i with
      | some (o, n) => if truthy o && truthy n then some (i, o.getD "") else none
      | none => none
  | _, _ => []

/-- `Redirect.get_or_create` on the composite primary key. -/
def Redirect.get_or_create (st : St) (mn ident value mid : String) : St :=
  if st.redirects.any (fun r =>
      r.model_name == mn && r.identifier == ident &&
      r.value == value && r.model_id == mid)
  then st
  else { st with redirects := st.redirects ++ [⟨mn, ident, value, mid⟩] }

/-- The first entity of the named model whose `identifier` attribute holds
`value` (`model.first(getattr(model, identifier) == value)`). -/
def Redirect.firstOwner (st : St) (mn ident value : String) : Option ERow :=
  st.entities.find? (fun e => e.model_name == mn && attrOf e ident == some value)

/-- `Redirect.propagate`: if the model is registered and some entity
currently holds `value` under `identifier`, every redirect row of that
model pointing at that entity's id is re-pointed at `model_id`. -/
def Redirect.propagate (st : St) (mn ident value mid : String) : St :=
  match st.registry.lookup mn with
  | none => st
  | some _ =>
    match Redirect.firstOwner st mn ident value with
    | none => st
    | some old =>
      { st with redirects := st.redirects.map (fun r =>
          if r.model_id == old.id && r.model_name == mn
          then { r with model_id := mid } else r) }

/-- The shared tail of `Redirect.add`: `get_or_create` the entry, then
`propagate`. -/
def Redirect.add_core (st : St) (mn mid ident value : String) : St :=
  Redirect.propagate (Redirect.get_or_create st mn ident value mid) mn ident value mid

/-- `Redirect.add` called with a `(model_name, model_id)` tuple (the
`from_diff` optimisation): no validation. -/
def Redirect.add_pair (st : St) (mn mid ident value : String) : St :=
  Redirect.add_core st mn mid ident value

/-- Errors `Redirect.add` raises on the instance path. -/
inductive AddError
  | invalidIdentifier
  | selfRedirect
deriving DecidableEq

/-- `Redirect.add` called with a model instance: the identifier must be a
declared identifier of the model (or `id`/`pk`), and the redirect must not
point at the value the instance's identifier currently holds. -/
def Redirect.add_inst (st : St) (inst : ERow) (ident value : String) :
    Except AddError St :=
  let idents := (st.registry.lookup inst.model_name).getD []
  if ident ∉ idents ++ ["id", "pk"] then .error .invalidIdentifier
  else if attrOf inst ident == some value then .error .selfRedirect
  else .ok (Redirect.add_core st inst.model_name inst.id ident value)

/-- `Redirect.from_diff`: only an update (both snapshots present) adds
redirects; one `Redirect.add` per surviving identifier/old-value pair, on
the evolving state. -/
def Redirect.from_diff (st : St) (d : DiffRec) : St :=
  match d.new, d.old with
  | some newS, some _ =>
    (Redirect.from_diff_adds st d).foldl
      (fun s iv =>
        Redirect.add_pair s newS.model_name ((newS.data.lookup "id").getD "") iv.1 iv.2)
      st
  | _, _ => st

/-- `Redirect.follow`: the `model_id`s of all redirect rows matching
`(model_name, identifier, value)` (the caller passes the model name
already lowercased, as stored). -/
def Redirect.follow (st : St) (mn ident value : String) : List String :=
  (st.redirects.filter (fun r =>
      r.model_name == mn && r.identifier == ident && r.value == value)).map
    (fun r => r.model_id)

/-- The data map of an optional snapshot, defaulting to the empty map
when the snapshot side is null. -/
def snapData : Option Snap → List (String × String)
  | some s => s.data
  | none => []

/-- `Diff.save`: when the diff field is unset it is computed by
`make_diff` over the two snapshots' data (empty map for a missing side);
the row is persisted and `Redirect.from_diff` runs. -/
def Diff.saveRec (st : St) (d : DiffRec) : St :=
  let d := if d.diff.isEmpty then
      { d with diff := make_diff (snapData d.old) (snapData d.new) } else d
  let st := { st with diffs := st.diffs ++ [d] }
  Redirect.from_diff st d

/-- `super().save()` on the entity row: insert with a fresh pk, or update
the existing row in place. -/
def Versioned.rowSave (st : St) (e : VEntity) : St × VEntity :=
  match e.pk with
  | none =>
    let pk := st.nextPk
    let e := { e with pk := some pk }
    ({ st with nextPk := st.nextPk + 1,
               entities := st.entities ++ [⟨pk, e.resource, e.idStr, e.dataFields⟩] }, e)
  | some pk =>
    ({ st with entities := st.entities.map (fun r =>
        if r.pk == pk then ⟨pk, e.resource, e.idStr, e.dataFields⟩ else r) }, e)

/-- `Versioned.store_version`: create the new snapshot at the current
version with an open period starting at `modified_at`; when `version > 1`
close the previous snapshot's period at the new lower bound; when
`Diff.ACTIVE`, create (and thereby save) the diff row. -/
def Versioned.store_version (st : St) (e : VEntity) : Except SaveErr St :=
  let newSnap : Snap :=
    { model_name := e.resource, model_pk := e.pk.getD 0,
      sequential := e.version, data := e.dataFields,
      periodLo := e.modified_at.getD 0, periodHi := none }
  match Version.create st newSnap with
  | .error err => .error err
  | .ok st1 =>
    if e.version > 1 then
      match Versioned.load_version st1 e (e.version - 1) with
      | none => .error .attributeError
      | some o =>
        let st2 := Version.close_period_db st1 o newSnap.periodLo
        if st2.diffActive then
          .ok (Diff.saveRec st2
            { old := some { o with periodHi := some newSnap.periodLo },
              new := some newSnap, diff := [],
              insee := e.insee, created_at := e.modified_at.getD 0 })
        else .ok st2
    else
      if st1.diffActive then
        .ok (Diff.saveRec st1
          { old := none, new := some newSnap, diff := [],
            insee := e.insee, created_at := e.modified_at.getD 0 })
      else .ok st1

/-- `Versioned.save`: inside one transaction, `check_version` (comparing
against `_locked_version + 1`; an unset attribute is Python's
`None + 1` TypeError), `update_meta` with the ambient session and clock,
the row write, `store_version`, and the final `lock_version` advancing the
baseline. -/
def Versioned.save (st : St) (session : Option Nat) (e : VEntity) :
    Except SaveErr (St × VEntity) :=
  match e.locked with
  | none => .error .typeError
  | some baseline =>
    if e.version ≠ baseline + 1 then .error .forcedVersion
    else
      let p := Versioned.rowSave { st with clock := st.clock + 1 }
        (Versioned.update_meta session st.clock e)
      match Versioned.store_version p.1 p.2 with
      | .error err => .error err
      | .ok st2 => .ok (st2, Versioned.lock_version p.2)

/-- The transaction wrapper: `database.atomic()` rolls everything back on
failure, so a failed save leaves the state (and the in-memory instance)
unchanged. -/
def Versioned.runSave (st : St) (session : Option Nat) (e : VEntity) : St × VEntity :=
  match Versioned.save st session e with
  | .ok (st', e') => (st', e')
  | .error _ => (st, e)

/-- C1: save with `version ≠ baseline + 1` raises `ForcedVersionError`,
and the transaction performs no writes: the entity row, the snapshot
table and every other table are unchanged (the rolled-back state is the
input state). -/
theorem save_version_conflict_no_writes
    (st : St) (session : Option Nat) (e : VEntity) (b : Nat)
    (hb : e.locked = some b) (hv : e.version ≠ b + 1) :
    Versioned.save st session e = .error .forcedVersion ∧
    Versioned.runSave st session e = (st, e) := by
  have hsave : Versioned.save st session e = .error .forcedVersion := by
    unfold Versioned.save
    rw [hb]
    simp [hv]
  exact ⟨hsave, by unfold Versioned.runSave; rw [hsave]⟩

/-- C1 witness: a concrete conflicting save (baseline 1, version 3)
fails with the version-conflict error and changes nothing. -/
theorem save_version_conflict_no_writes_witness :
    Versioned.save
      { clock := 5, nextPk := 2, versions := [], diffs := [], redirects := [],
        entities := [], flags := [], registry := [], diffActive := true }
      (some 4)
      { pk := some 1, resource := "municipality", idStr := "m1", insee := "75056",
        version := 3, created_at := some 0, created_by := some 4,
        modified_at := some 0, modified_by := some 4, locked := some 1,
        dataFields := [] }
      = .error .forcedVersion ∧
    Versioned.runSave
      { clock := 5, nextPk := 2, versions := [], diffs := [], redirects := [],
        entities := [], flags := [], registry := [], diffActive := true }
      (some 4)
      { pk := some 1, resource := "municipality", idStr := "m1", insee := "75056",
        version := 3, created_at := some 0, created_by := some 4,
        modified_at := some 0, modified_by := some 4, locked := some 1,
        dataFields := [] }
      =
      ({ clock := 5, nextPk := 2, versions := [], diffs := [], redirects := [],
         entities := [], flags := [], registry := [], diffActive := true },
       { pk := some 1, resource := "municipality", idStr := "m1", insee := "75056",
         version := 3, created_at := some 0, created_by := some 4,
         modified_at := some 0, modified_by := some 4, locked := some 1,
         dataFields := [] }) :=
  save_version_conflict_no_writes _ _ _ 1 rfl (by decide)

lemma Versioned.rowSave_snd_meta (st : St) (e : VEntity) :
    (Versioned.rowSave st e).2.modified_at = e.modified_at ∧
    (Versioned.rowSave st e).2.modified_by = e.modified_by ∧
    (Versioned.rowSave st e).2.created_at = e.created_at ∧
    (Versioned.rowSave st e).2.created_by = e.created_by := by
  cases hp : e.pk <;> simp [Versioned.rowSave, hp]

lemma Versioned.lock_version_meta (e : VEntity) :
    (Versioned.lock_version e).modified_at = e.modified_at ∧
    (Versioned.lock_version e).modified_by = e.modified_by ∧
    (Versioned.lock_version e).created_at = e.created_at ∧
    (Versioned.lock_version e).created_by = e.created_by := by
  cases hp : e.pk <;> simp [Versioned.lock_version, hp]

lemma Versioned.update_meta_fields (a now : Nat) (e : VEntity) :
    (Versioned.update_meta (some a) now e).modified_at = some now ∧
    (Versioned.update_meta (some a) now e).modified_by = some a ∧
    (Versioned.update_meta (some a) now e).created_at
      = (if e.created_at = none then some now else e.created_at) ∧
    (Versioned.update_meta (some a) now e).created_by
      = (if e.created_by = none then some a else e.created_by) := by
  by_cases hca : e.created_at = none <;> by_cases hcb : e.created_by = none <;>
    simp [Versioned.update_meta, hca, hcb]

theorem save_stamps_meta (st : St) (a : Nat) (e : VEntity) (st' : St) (e' : VEntity)
    (h : Versioned.save st (some a) e = .ok (st', e')) :
    e'.modified_at = some st.clock ∧
    e'.modified_by = some a ∧
    e'.created_at = (if e.created_at = none then some st.clock else e.created_at) ∧
    e'.created_by = (if e.created_by = none then some a else e.created_by) := by
  unfold Versioned.save at h
  split at h
  · cases h
  · rename_i baseline hbl
    split at h
    · cases h
    · rename_i hv
      rcases hp : Versioned.rowSave { st with clock := st.clock + 1 }
          (Versioned.update_meta (some a) st.clock e) with ⟨st3, e3⟩
      rw [hp] at h
      have h2 : (match Versioned.store_version st3 e3 with
          | Except.error err => (Except.error err : Except SaveErr (St × VEntity))
          | Except.ok st2 => Except.ok (st2, Versioned.lock_version e3))
          = Except.ok (st', e') := h
      cases hs : Versioned.store_version st3 e3 with
      | error err => rw [hs] at h2; cases h2
      | ok st4 =>
        rw [hs] at h2
        have h3 : (Except.ok (st4, Versioned.lock_version e3) : Except SaveErr (St × VEntity))
            = Except.ok (st', e') := h2
        injection h3 with hpair
        have he' : e' = Versioned.lock_version e3 := ((Prod.ext_iff.mp hpair).2).symm
        rw [he']
        have h4 : e3 = (Versioned.rowSave { st with clock := st.clock + 1 }
            (Versioned.update_meta (some a) st.clock e)).2 := by rw [hp]
        obtain ⟨l1, l2, l3, l4⟩ := Versioned.lock_version_meta e3
        obtain ⟨r1, r2, r3, r4⟩ := Versioned.rowSave_snd_meta
          { st with clock := st.clock + 1 } (Versioned.update_meta (some a) st.clock e)
        obtain ⟨u1, u2, u3, u4⟩ := Versioned.update_meta_fields a st.clock e
        rw [l1, l2, l3, l4, h4, r1, r2, r3, r4, u1, u2, u3, u4]
        exact ⟨rfl, rfl, rfl, rfl⟩

def demoSt : St :=
  { clock := 0, nextPk := 1, versions := [], diffs := [], redirects := [],
    entities := [], flags := [], registry := [("municipality", ["insee", "siren"])],
    diffActive := true }

def demoEntity : VEntity :=
  Versioned.newEntity "municipality" "m1" "75056"
    [("id", "m1"), ("name", "Paris"), ("insee", "75056")]

theorem save_stamps_meta_witness :
    (Versioned.runSave demoSt (some 4) demoEntity).2.modified_at = some 0 ∧
    (Versioned.runSave demoSt (some 4) demoEntity).2.modified_by = some 4 ∧
    (Versioned.runSave demoSt (some 4) demoEntity).2.created_at = some 0 ∧
    (Versioned.runSave demoSt (some 4) demoEntity).2.created_by = some 4 := by
  have h : Versioned.save demoSt (some 4) demoEntity
      = .ok (Versioned.runSave demoSt (some 4) demoEntity) := rfl
  have := save_stamps_meta demoSt 4 demoEntity
    (Versioned.runSave demoSt (some 4) demoEntity).1
    (Versioned.runSave demoSt (some 4) demoEntity).2 (by rw [h])
  simpa [demoEntity, Versioned.newEntity, Versioned.lock_version, demoSt] using this

theorem locked_baseline_once :
    (∀ rn idStr insee data,
      (Versioned.newEntity rn idStr insee data).locked = some 0 ∧
      (Versioned.newEntity rn idStr insee data).version = 1) ∧
    (∀ pk rn idStr insee v ca cb ma mb data,
      (Versioned.fetchedEntity pk rn idStr insee v ca cb ma mb data).locked = some v ∧
      (Versioned.fetchedEntity pk rn idStr insee v ca cb ma mb data).version = v) ∧
    (∀ e : VEntity, ∀ v : Nat, e.locked.isSome →
      Versioned.set_locked_version e v = .error "locked_version is read only") := by
  refine ⟨?_, ?_, ?_⟩
  · intro rn idStr insee data
    simp [Versioned.newEntity, Versioned.lock_version]
  · intro pk rn idStr insee v ca cb ma mb data
    simp [Versioned.fetchedEntity, Versioned.lock_version]
  · intro e v h
    simp [Versioned.set_locked_version, h]

theorem locked_baseline_once_witness :
    (demoEntity.locked = some 0 ∧ demoEntity.version = 1) ∧
    ((Versioned.fetchedEntity 1 "municipality" "m1" "75056" 7 (some 0) (some 4)
        (some 0) (some 4) []).locked = some 7 ∧
     (Versioned.fetchedEntity 1 "municipality" "m1" "75056" 7 (some 0) (some 4)
        (some 0) (some 4) []).version = 7) ∧
    Versioned.set_locked_version demoEntity 9 = .error "locked_version is read only" :=
  ⟨locked_baseline_once.1 "municipality" "m1" "75056"
      [("id", "m1"), ("name", "Paris"), ("insee", "75056")],
   locked_baseline_once.2.1 1 "municipality" "m1" "75056" 7 (some 0) (some 4)
      (some 0) (some 4) [],
   locked_baseline_once.2.2 demoEntity 9 (by decide)⟩

/-- The errors `Version.coerce` can raise after a direct-lookup miss. -/
inductive CoerceErr
  | doesNotExist
  | redirect (identifier value target : String)
  | multipleRedirects (identifier value : String) (targets : List String)
deriving DecidableEq

/-- The direct lookup `cls.raw_select().where(getattr(cls, identifier) == id).get()`
over the model's table: first row of the named model whose identifier
attribute equals the value (none models `DoesNotExist`). -/
def findRow (st : St) (mn ident value : String) : Option ERow :=
  st.entities.find? (fun e => e.model_name == mn && attrOf e ident == some value)

/-- `Version.coerce` (the lookup core, after argument normalisation): try
the direct lookup; on `DoesNotExist` consult the redirect table — zero
matches re-raise the miss, exactly one raises `RedirectError` with the
resolved id, several raise `MultipleRedirectsError`. -/
def Version.coerce (st : St) (mn ident value : String) : Except CoerceErr ERow :=
  match findRow st mn ident value with
  | some inst => .ok inst
  | none =>
    match Redirect.follow st mn ident value with
    | [] => .error .doesNotExist
    | [r] => .error (.redirect ident value r)
    | rs => .error (.multipleRedirects ident value rs)

/-- C3: `coerce` tries the direct lookup first and returns its hit; on a
miss, zero redirect matches propagate the not-found failure, exactly one
match fails with the redirect error carrying the resolved id, and more
than one match fails with the distinct ambiguous-redirect error. -/
theorem coerce_redirect_contract (st : St) (mn ident value : String) :
    (∀ inst, findRow st mn ident value = some inst →
      Version.coerce st mn ident value = .ok inst) ∧
    (findRow st mn ident value = none →
      (Redirect.follow st mn ident value = [] →
        Version.coerce st mn ident value = .error .doesNotExist) ∧
      (∀ r, Redirect.follow st mn ident value = [r] →
        Version.coerce st mn ident value = .error (.redirect ident value r)) ∧
      (∀ r1 r2 rs, Redirect.follow st mn ident value = r1 :: r2 :: rs →
        Version.coerce st mn ident value
          = .error (.multipleRedirects ident value (r1 :: r2 :: rs)))) := by
  constructor
  · intro inst h
    simp [Version.coerce, h]
  · intro h
    refine ⟨?_, ?_, ?_⟩
    · intro hf; simp [Version.coerce, h, hf]
    · intro r hf; simp [Version.coerce, h, hf]
    · intro r1 r2 rs hf; simp [Version.coerce, h, hf]

/-- A state whose entity table is empty but which holds redirect rows:
one for the retired insee 11111, and two conflicting rows for 22222. -/
def demoRedSt : St :=
  { clock := 0, nextPk := 1, versions := [], diffs := [],
    redirects := [⟨"municipality", "insee", "11111", "m9"⟩,
                  ⟨"municipality", "insee", "22222", "m3"⟩,
                  ⟨"municipality", "insee", "22222", "m4"⟩],
    entities := [], flags := [],
    registry := [("municipality", ["insee", "siren"])], diffActive := true }

/-- C3 witness: on the concrete state the single-match lookup fails with
the redirect error carrying the resolved id, and the two-match lookup
fails with the ambiguous-redirect error. -/
theorem coerce_redirect_contract_witness :
    Version.coerce demoRedSt "municipality" "insee" "11111"
      = .error (.redirect "insee" "11111" "m9") ∧
    Version.coerce demoRedSt "municipality" "insee" "22222"
      = .error (.multipleRedirects "insee" "22222" ["m3", "m4"]) :=
  ⟨((coerce_redirect_contract demoRedSt "municipality" "insee" "11111").2
      (by decide)).2.1 "m9" (by decide),
   ((coerce_redirect_contract demoRedSt "municipality" "insee" "22222").2
      (by decide)).2.2 "m3" "m4" [] (by decide)⟩

/-- C9: `Redirect.add` on a model instance rejects an identifier kind that
is not among the model's declared identifiers nor `id`/`pk`, and rejects a
redirect pointing at the value the instance's identifier currently holds;
both raise instead of creating the entry. -/
theorem redirect_add_validation (st : St) (inst : ERow) (ident value : String) :
    (ident ∉ (st.registry.lookup inst.model_name).getD [] ++ ["id", "pk"] →
      Redirect.add_inst st inst ident value = .error .invalidIdentifier) ∧
    (ident ∈ (st.registry.lookup inst.model_name).getD [] ++ ["id", "pk"] →
      attrOf inst ident = some value →
      Redirect.add_inst st inst ident value = .error .selfRedirect) := by
  constructor
  · intro h
    simp [Redirect.add_inst, h]
  · intro h hv
    simp [Redirect.add_inst, h, hv]

/-- C9 witness: on a concrete registered municipality row, using the
undeclared identifier kind `name` raises the invalid-identifier error, and
redirecting `insee` to the value the row currently holds raises the
self-redirect error. -/
theorem redirect_add_validation_witness :
    Redirect.add_inst demoSt ⟨1, "municipality", "m1", [("insee", "75056")]⟩
        "name" "Paris" = .error .invalidIdentifier ∧
    Redirect.add_inst demoSt ⟨1, "municipality", "m1", [("insee", "75056")]⟩
        "insee" "75056" = .error .selfRedirect :=
  ⟨(redirect_add_validation demoSt ⟨1, "municipality", "m1", [("insee", "75056")]⟩
      "name" "Paris").1 (by decide),
   (redirect_add_validation demoSt ⟨1, "municipality", "m1", [("insee", "75056")]⟩
      "insee" "75056").2 (by decide) (by decide)⟩

/-- `get_or_create` touches only the redirect table. -/
lemma Redirect.get_or_create_entities (st : St) (mn ident value mid : String) :
    (Redirect.get_or_create st mn ident value mid).entities = st.entities ∧
    (Redirect.get_or_create st mn ident value mid).registry = st.registry := by
  unfold Redirect.get_or_create
  split <;> exact ⟨rfl, rfl⟩

/-- Existing redirect rows survive `get_or_create`. -/
lemma Redirect.mem_get_or_create (st : St) (mn ident value mid : String)
    (r : RedirectRow) (h : r ∈ st.redirects) :
    r ∈ (Redirect.get_or_create st mn ident value mid).redirects := by
  unfold Redirect.get_or_create
  split
  · exact h
  · exact List.mem_append_left _ h

/-- Every row after `get_or_create` is an existing row or the new entry. -/
lemma Redirect.mem_of_get_or_create (st : St) (mn ident value mid : String)
    (r : RedirectRow) (h : r ∈ (Redirect.get_or_create st mn ident value mid).redirects) :
    r ∈ st.redirects ∨ r = ⟨mn, ident, value, mid⟩ := by
  unfold Redirect.get_or_create at h
  split at h
  · exact Or.inl h
  · rcases List.mem_append.mp h with h | h
    · exact Or.inl h
    · exact Or.inr (List.mem_singleton.mp h)

/-- `firstOwner` only reads the entity table. -/
lemma Redirect.firstOwner_congr (st st' : St) (mn ident value : String)
    (h : st'.entities = st.entities) :
    Redirect.firstOwner st' mn ident value = Redirect.firstOwner st mn ident value := by
  unfold Redirect.firstOwner
  rw [h]

/-- C6: registering a redirect entry (`add` = `get_or_create` then
`propagate`) when some entity `E` currently owns the identifier value
rewrites every pre-existing entry of that model resolving to `E` so that
it points at the registered `model_id`, leaves all other entries intact,
and afterwards no entry of the model resolves to `E` any more. -/
theorem redirect_propagate_retargets (st : St) (mn mid ident value : String) (E : ERow)
    (hreg : (st.registry.lookup mn).isSome)
    (hown : Redirect.firstOwner st mn ident value = some E)
    (hne : E.id ≠ mid) :
    (∀ r ∈ st.redirects, r.model_name = mn → r.model_id = E.id →
      { r with model_id := mid } ∈ (Redirect.add_core st mn mid ident value).redirects) ∧
    (∀ r ∈ st.redirects, ¬(r.model_name = mn ∧ r.model_id = E.id) →
      r ∈ (Redirect.add_core st mn mid ident value).redirects) ∧
    (∀ r ∈ (Redirect.add_core st mn mid ident value).redirects,
      ¬(r.model_name = mn ∧ r.model_id = E.id)) := by
  obtain ⟨hent, hrg⟩ := Redirect.get_or_create_entities st mn ident value mid
  obtain ⟨ids, hids⟩ := Option.isSome_iff_exists.mp hreg
  have hown' : Redirect.firstOwner (Redirect.get_or_create st mn ident value mid)
      mn ident value = some E := by
    rw [Redirect.firstOwner_congr st (Redirect.get_or_create st mn ident value mid)
      mn ident value hent]
    exact hown
  have hred : (Redirect.add_core st mn mid ident value).redirects
      = (Redirect.get_or_create st mn ident value mid).redirects.map (fun r =>
          if r.model_id == E.id && r.model_name == mn
          then { r with model_id := mid } else r) := by
    unfold Redirect.add_core Redirect.propagate
    rw [hrg, hids, hown']
  refine ⟨?_, ?_, ?_⟩
  · intro r hr hrn hri
    rw [hred]
    refine List.mem_map.mpr ⟨r, Redirect.mem_get_or_create st mn ident value mid r hr, ?_⟩
    rw [if_pos (by simp [hrn, hri])]
  · intro r hr hnot
    rw [hred]
    refine List.mem_map.mpr ⟨r, Redirect.mem_get_or_create st mn ident value mid r hr, ?_⟩
    rw [if_neg]
    simp only [Bool.and_eq_true, beq_iff_eq]
    rintro ⟨h1, h2⟩
    exact hnot ⟨h2, h1⟩
  · intro r hr
    rw [hred] at hr
    obtain ⟨y, -, hy⟩ := List.mem_map.mp hr
    by_cases hc : (y.model_id == E.id && y.model_name == mn) = true
    · rw [if_pos hc] at hy
      rintro ⟨-, h2⟩
      rw [← hy] at h2
      exact hne h2.symm
    · rw [if_neg hc] at hy
      simp only [Bool.and_eq_true, beq_iff_eq, not_and] at hc
      rintro ⟨h1, h2⟩
      rw [← hy] at h1 h2
      exact hc h2 h1

/-- A state for the retargeting witness: entity `m2` currently owns insee
11111, and a stale redirect for insee 00000 still resolves to `m2`. -/
def demoPropSt : St :=
  { clock := 0, nextPk := 3, versions := [], diffs := [],
    redirects := [⟨"municipality", "insee", "00000", "m2"⟩],
    entities := [⟨2, "municipality", "m2", [("insee", "11111")]⟩], flags := [],
    registry := [("municipality", ["insee", "siren"])], diffActive := true }

/-- C6 witness: registering insee 11111 → `m5` while `m2` owns 11111
retargets the stale entry for 00000 from `m2` to `m5`, and no entry of the
model resolves to `m2` afterwards. -/
theorem redirect_propagate_retargets_witness :
    (⟨"municipality", "insee", "00000", "m5"⟩ : RedirectRow)
      ∈ (Redirect.add_core demoPropSt "municipality" "m5" "insee" "11111").redirects ∧
    (∀ r ∈ (Redirect.add_core demoPropSt "municipality" "m5" "insee" "11111").redirects,
      ¬(r.model_name = "municipality" ∧ r.model_id = "m2")) :=
  ⟨(redirect_propagate_retargets demoPropSt "municipality" "m5" "insee" "11111"
      ⟨2, "municipality", "m2", [("insee", "11111")]⟩ (by decide) (by decide)
      (by decide)).1 ⟨"municipality", "insee", "00000", "m2"⟩ (by decide) rfl rfl,
   (redirect_propagate_retargets demoPropSt "municipality" "m5" "insee" "11111"
      ⟨2, "municipality", "m2", [("insee", "11111")]⟩ (by decide) (by decide)
      (by decide)).2.2⟩

/-- C5: redirect propagation from a persisted diff runs only for an
update (both snapshots present) — a creation or a deletion changes
nothing — and the identifier/old-value pairs it registers are exactly the
declared identifier fields of the model that appear in the diff with both
old and new values truthy (non-null, non-empty). -/
theorem from_diff_update_only (st : St) (d : DiffRec) :
    ((d.old = none ∨ d.new = none) → Redirect.from_diff st d = st) ∧
    (∀ oldS newS, d.old = some oldS → d.new = some newS →
      Redirect.from_diff st d
        = (Redirect.from_diff_adds st d).foldl
            (fun s iv => Redirect.add_pair s newS.model_name
              ((newS.data.lookup "id").getD "") iv.1 iv.2) st) ∧
    (∀ oldS newS i v, d.old = some oldS → d.new = some newS →
      ((i, v) ∈ Redirect.from_diff_adds st d ↔
        i ∈ (st.registry.lookup newS.model_name).getD [] ∧
        ∃ o n, d.diff.lookup i = some (o, n) ∧ truthy o = true ∧ truthy n = true ∧
          o = some v)) := by
  refine ⟨?_, ?_, ?_⟩
  · intro h
    unfold Redirect.from_diff
    rcases h with h | h
    · rw [h]
      cases hn : d.new <;> rfl
    · rw [h]
  · intro oldS newS ho hn
    unfold Redirect.from_diff
    rw [ho, hn]
  · intro oldS newS i v ho hn
    unfold Redirect.from_diff_adds
    rw [ho, hn]
    constructor
    · intro hmem
      obtain ⟨a, ha, hg⟩ := List.mem_filterMap.mp hmem
      cases hl : d.diff.lookup a with
      | none => simp [hl] at hg
      | some p =>
        obtain ⟨o, n⟩ := p
        simp only [hl] at hg
        by_cases ht : (truthy o && truthy n) = true
        · rw [if_pos ht] at hg
          have hp := Option.some.inj hg
          have ha2 : a = i := (Prod.ext_iff.mp hp).1
          have hv2 : o.getD "" = v := (Prod.ext_iff.mp hp).2
          subst ha2
          simp only [Bool.and_eq_true] at ht
          obtain ⟨hto, htn⟩ := ht
          cases o with
          | none => simp [truthy] at hto
          | some s =>
            have hsv : s = v := hv2
            subst hsv
            exact ⟨List.mem_of_mem_filter ha, some s, n, hl, hto, htn, rfl⟩
        · rw [if_neg ht] at hg
          cases hg
    · rintro ⟨hin, o, n, hl, ho2, hn2, hov⟩
      subst hov
      refine List.mem_filterMap.mpr ⟨i, List.mem_filter.mpr ⟨hin, by rw [hl]; rfl⟩, ?_⟩
      simp only [hl, ho2, hn2, Bool.and_self, if_true]
      rfl

/-- Old snapshot for the diff-propagation witness. -/
def demoSnapA : Snap :=
  { model_name := "municipality", model_pk := 1, sequential := 1,
    data := [("id", "m1"), ("insee", "11111")], periodLo := 0, periodHi := some 1 }

/-- New snapshot for the diff-propagation witness. -/
def demoSnapB : Snap :=
  { model_name := "municipality", model_pk := 1, sequential := 2,
    data := [("id", "m1"), ("insee", "22222")], periodLo := 1, periodHi := none }

/-- A persisted update diff whose `insee` identifier changed. -/
def demoDiff : DiffRec :=
  { old := some demoSnapA, new := some demoSnapB,
    diff := [("insee", (some "11111", some "22222")), ("name", (some "X", some "Y"))],
    insee := "22222", created_at := 1 }

/-- C5 witness: a creation diff (no old snapshot) adds no redirect, and on
the concrete update diff the changed declared identifier `insee` with its
old value is registered. -/
theorem from_diff_update_only_witness :
    Redirect.from_diff demoSt
      { old := none, new := some demoSnapB, diff := [], insee := "22222",
        created_at := 1 } = demoSt ∧
    ("insee", "11111") ∈ Redirect.from_diff_adds demoSt demoDiff :=
  ⟨(from_diff_update_only demoSt
      { old := none, new := some demoSnapB, diff := [], insee := "22222",
        created_at := 1 }).1 (Or.inl rfl),
   ((from_diff_update_only demoSt demoDiff).2.2 demoSnapA demoSnapB "insee" "11111"
      rfl rfl).mpr
     ⟨by decide, some "11111", some "22222", by decide, by decide, by decide, rfl⟩⟩

/-- The `contributor_type_required` decorator: requires an ambient
session, bound to a client, with a contributor type that is not the
viewer type; returns the session and its client pk. -/
def contributor_gate : Option SessRec → Except String (SessRec × Nat)
  | none => .error "Must be logged in."
  | some s =>
    match s.client with
    | none => .error "Token must be linked to a client."
    | some c =>
      match s.contributor_type with
      | none => .error "Session must have a valid contributor_type."
      | some t =>
        if t = "viewer" then
          .error "Contributor type viewer cannot flag or unflag resource."
        else .ok (s, c)

/-- `Version.flag`: after the permission gate, create a flag row for
(snapshot, client) unless one already exists. -/
def Version.flag (st : St) (v : Nat) (sess : Option SessRec) : Except String St :=
  match contributor_gate sess with
  | .error e => .error e
  | .ok (s, c) =>
    if st.flags.any (fun f => f.version == v && f.client == c) then .ok st
    else .ok { st with flags := st.flags ++ [⟨v, c, s.pk, st.clock⟩],
                       clock := st.clock + 1 }

/-- `Version.unflag`: after the permission gate, delete the flag rows of
this snapshot owned by the session's client. -/
def Version.unflag (st : St) (v : Nat) (sess : Option SessRec) : Except String St :=
  match contributor_gate sess with
  | .error e => .error e
  | .ok (_, c) =>
    .ok { st with flags := st.flags.filter (fun f => !(f.version == v && f.client == c)) }

/-- C10: flags are unique per (snapshot, client): a second `flag` by the
same actor is a no-op, and flagging from a state with no such row yields
exactly one; `unflag` succeeds even with no prior flag and deletes exactly
the calling actor's rows for that snapshot, preserving every other flag. -/
theorem flag_unique_unflag_own (st : St) (v : Nat) (sess : Option SessRec)
    (s : SessRec) (c : Nat) (hg : contributor_gate sess = .ok (s, c)) :
    (∀ st1, Version.flag st v sess = .ok st1 → Version.flag st1 v sess = .ok st1) ∧
    ((st.flags.filter (fun f => f.version == v && f.client == c)).length = 0 →
      ∀ st1, Version.flag st v sess = .ok st1 →
        (st1.flags.filter (fun f => f.version == v && f.client == c)).length = 1) ∧
    (∃ st2, Version.unflag st v sess = .ok st2 ∧
      (∀ f ∈ st.flags, ¬(f.version = v ∧ f.client = c) → f ∈ st2.flags) ∧
      (∀ f ∈ st2.flags, f ∈ st.flags) ∧
      (∀ f ∈ st2.flags, ¬(f.version = v ∧ f.client = c))) := by
  refine ⟨?_, ?_, ?_⟩
  · intro st1 h
    unfold Version.flag at h ⊢
    simp only [hg] at h ⊢
    by_cases hex : st.flags.any (fun f => f.version == v && f.client == c) = true
    · rw [if_pos hex] at h
      have h1 : st1 = st := (Except.ok.inj h).symm
      subst h1
      rw [if_pos hex]
    · rw [if_neg hex] at h
      have h1 : st1 = { st with flags := st.flags ++ [⟨v, c, s.pk, st.clock⟩],
                                clock := st.clock + 1 } := (Except.ok.inj h).symm
      subst h1
      rw [if_pos]
      exact List.any_eq_true.mpr
        ⟨⟨v, c, s.pk, st.clock⟩, List.mem_append_right _ (List.mem_singleton.mpr rfl),
         by simp⟩
  · intro hzero st1 h
    unfold Version.flag at h
    simp only [hg] at h
    have hnone : ∀ f ∈ st.flags, ¬(f.version == v && f.client == c) = true := by
      intro f hf hc
      have : f ∈ st.flags.filter (fun f => f.version == v && f.client == c) :=
        List.mem_filter.mpr ⟨hf, hc⟩
      rw [List.length_eq_zero.mp hzero] at this
      cases this
    have hex : st.flags.any (fun f => f.version == v && f.client == c) = false := by
      rw [List.any_eq_false]
      exact fun f hf hc => hnone f hf hc
    rw [if_neg (by rw [hex]; exact Bool.false_ne_true)] at h
    have h1 : st1 = { st with flags := st.flags ++ [⟨v, c, s.pk, st.clock⟩],
                              clock := st.clock + 1 } := (Except.ok.inj h).symm
    subst h1
    simp only [List.filter_append, List.length_append]
    rw [List.length_eq_zero.mp hzero]
    simp
  · refine ⟨_, by unfold Version.unflag; rw [hg], ?_, ?_, ?_⟩
    · intro f hf hnot
      refine List.mem_filter.mpr ⟨hf, ?_⟩
      simp only [Bool.not_eq_true', Bool.and_eq_false_iff, beq_eq_false_iff_ne]
      by_cases h1 : f.version = v
      · exact Or.inr (fun hc => hnot ⟨h1, hc⟩)
      · exact Or.inl h1
    · intro f hf
      exact List.mem_of_mem_filter hf
    · intro f hf
      have := (List.mem_filter.mp hf).2
      simp only [Bool.not_eq_true', Bool.and_eq_false_iff, beq_eq_false_iff_ne] at this
      rintro ⟨h1, h2⟩
      rcases this with h | h
      · exact h h1
      · exact h h2

/-- A valid contributing session for the flag witness. -/
def demoSess : Option SessRec := some ⟨10, some 3, some "admin"⟩

/-- A state holding one foreign flag (client 8) on snapshot 5. -/
def demoFlagSt : St :=
  { clock := 9, nextPk := 1, versions := [], diffs := [], redirects := [],
    entities := [], flags := [⟨5, 8, 20, 0⟩], registry := [], diffActive := true }

/-- The state after client 3 flags snapshot 5 on `demoFlagSt`. -/
def demoFlagSt1 : St :=
  { clock := 10, nextPk := 1, versions := [], diffs := [], redirects := [],
    entities := [], flags := [⟨5, 8, 20, 0⟩, ⟨5, 3, 10, 9⟩], registry := [],
    diffActive := true }

/-- C10 witness: on the concrete state, flagging again after a first flag
by the same client is a no-op. -/
theorem flag_unique_unflag_own_witness :
    Version.flag demoFlagSt1 5 demoSess = .ok demoFlagSt1 :=
  (flag_unique_unflag_own demoFlagSt 5 demoSess ⟨10, some 3, some "admin"⟩ 3
      rfl).1 demoFlagSt1 rfl

/-- Looking up a key in the diff built over a duplicate-free key list:
present with the two lookups exactly when the two sides disagree on a key
of the list. -/
lemma lookup_filterMap_diff (a b : List (String × String)) :
    ∀ (ks : List String), ks.Nodup → ∀ f : String,
    (ks.filterMap (fun k => if a.lookup k = b.lookup k then none
        else some (k, (a.lookup k, b.lookup k)))).lookup f =
      if f ∈ ks ∧ ¬(a.lookup f = b.lookup f)
      then some (a.lookup f, b.lookup f) else none := by
  intro ks
  induction ks with
  | nil => intro _ f; simp
  | cons k ks ih =>
    intro hnd f
    obtain ⟨hk, hnd'⟩ := List.nodup_cons.mp hnd
    by_cases hek : a.lookup k = b.lookup k
    · rw [List.filterMap_cons_none (by rw [if_pos hek])]
      rw [ih hnd' f]
      by_cases hf : f = k
      · subst hf
        have h1 : f ∉ ks := hk
        simp [h1, hek]
      · simp [hf]
    · rw [List.filterMap_cons_some (b := (k, (a.lookup k, b.lookup k)))
        (by rw [if_neg hek])]
      by_cases hf : f = k
      · subst hf
        simp [List.lookup_cons, hek]
      · rw [List.lookup_cons]
        have hbk : (f == k) = false := beq_eq_false_iff_ne.mpr hf
        rw [hbk]
        rw [ih hnd' f]
        simp [hf]

/-- C4 helper: a field is in `make_diff old new` exactly when the two
sides' values differ, and then it carries exactly those two values. -/
lemma lookup_make_diff (a b : List (String × String)) (f : String) :
    (make_diff a b).lookup f =
      if a.lookup f = b.lookup f then none
      else some (a.lookup f, b.lookup f) := by
  unfold make_diff
  rw [lookup_filterMap_diff a b _ (List.nodup_dedup _) f]
  by_cases heq : a.lookup f = b.lookup f
  · simp [heq]
  · have hmem : f ∈ (a.map Prod.fst ++ b.map Prod.fst).dedup := by
      rw [List.mem_dedup, List.mem_append]
      by_cases ha : (a.lookup f).isSome
      · obtain ⟨p, hp, he⟩ := List.lookup_isSome_iff.mp ha
        exact Or.inl (List.mem_map.mpr ⟨p, hp, (beq_iff_eq.mp he).symm⟩)
      · have hnone : a.lookup f = none := Option.not_isSome_iff_eq_none.mp ha
        have hb : (b.lookup f).isSome := by
          cases hbl : b.lookup f with
          | none => exact absurd (hnone.trans hbl.symm) heq
          | some x => rfl
        obtain ⟨p, hp, he⟩ := List.lookup_isSome_iff.mp hb
        exact Or.inr (List.mem_map.mpr ⟨p, hp, (beq_iff_eq.mp he).symm⟩)
    simp [heq, hmem]

/-- `get_or_create` leaves the diff table alone. -/
lemma Redirect.get_or_create_diffs (st : St) (mn ident value mid : String) :
    (Redirect.get_or_create st mn ident value mid).diffs = st.diffs := by
  unfold Redirect.get_or_create
  split <;> rfl

/-- `propagate` leaves the diff table alone. -/
lemma Redirect.propagate_diffs (st : St) (mn ident value mid : String) :
    (Redirect.propagate st mn ident value mid).diffs = st.diffs := by
  unfold Redirect.propagate
  split
  · rfl
  · split <;> rfl

/-- A single redirect registration leaves the diff table alone. -/
lemma Redirect.add_pair_diffs (st : St) (mn mid ident value : String) :
    (Redirect.add_pair st mn mid ident value).diffs = st.diffs := by
  unfold Redirect.add_pair Redirect.add_core
  rw [Redirect.propagate_diffs, Redirect.get_or_create_diffs]

/-- Folding redirect registrations leaves the diff table alone. -/
lemma foldl_add_pair_diffs (mn mid : String) :
    ∀ (l : List (String × String)) (st : St),
    (l.foldl (fun s iv => Redirect.add_pair s mn mid iv.1 iv.2) st).diffs = st.diffs := by
  intro l
  induction l with
  | nil => intro st; rfl
  | cons x xs ih =>
    intro st
    rw [List.foldl_cons, ih, Redirect.add_pair_diffs]

/-- `from_diff` leaves the diff table alone. -/
lemma Redirect.from_diff_diffs (st : St) (d : DiffRec) :
    (Redirect.from_diff st d).diffs = st.diffs := by
  unfold Redirect.from_diff
  cases hn : d.new with
  | none => cases ho : d.old <;> rfl
  | some ns =>
    cases ho : d.old with
    | none => rfl
    | some os => rw [foldl_add_pair_diffs]

/-- C4: persisting a diff row with an unset diff stores exactly
`make_diff` of the two sides (each side the empty map when that snapshot
is null), and the stored changes hold a field exactly when the two sides'
values for it differ — equal values are omitted, and a field on one side
only appears as a transition from or to absent (`none`). -/
theorem diff_changes_iff (st : St) (d : DiffRec) (hd : d.diff = []) :
    (Diff.saveRec st d).diffs
      = st.diffs ++ [{ d with diff := make_diff (snapData d.old) (snapData d.new) }] ∧
    (∀ f, (make_diff (snapData d.old) (snapData d.new)).lookup f
        = if (snapData d.old).lookup f = (snapData d.new).lookup f then none
          else some ((snapData d.old).lookup f, (snapData d.new).lookup f)) := by
  constructor
  · unfold Diff.saveRec
    rw [hd]
    simp only [List.isEmpty_nil, if_true]
    rw [Redirect.from_diff_diffs]
  · intro f
    exact lookup_make_diff _ _ f

/-- A creation diff (no old side) used as the C4 witness. -/
def demoCreateDiff : DiffRec :=
  { old := none, new := some demoSnapB, diff := [], insee := "22222",
    created_at := 1 }

/-- C4 witness: on the concrete creation diff, the stored changes are the
computed `make_diff`, and field `id` (present on the new side only)
appears as an absent-to-value transition. -/
theorem diff_changes_iff_witness :
    (Diff.saveRec demoSt demoCreateDiff).diffs
      = demoSt.diffs ++ [{ demoCreateDiff with
          diff := make_diff (snapData demoCreateDiff.old) (snapData demoCreateDiff.new) }] ∧
    (make_diff (snapData demoCreateDiff.old) (snapData demoCreateDiff.new)).lookup "id"
      = some (none, some "m1") := by
  refine ⟨(diff_changes_iff demoSt demoCreateDiff rfl).1, ?_⟩
  have := (diff_changes_iff demoSt demoCreateDiff rfl).2 "id"
  rw [this]
  decide

/-- Diffing a data map against itself yields no changes. -/
lemma make_diff_self (d : List (String × String)) : make_diff d d = [] := by
  unfold make_diff
  exact List.filterMap_eq_nil_iff.mpr (fun k _ => by rw [if_pos rfl])

/-- The empty initial database with a given registry. -/
def initialSt (reg : List (String × List String)) : St :=
  { clock := 0, nextPk := 1, versions := [], diffs := [], redirects := [],
    entities := [], flags := [], registry := reg, diffActive := true }

/-- The canonical sequence of `n` successful saves of one entity: the
fresh instance is saved once, and every subsequent save is preceded by
exactly one `increment_version` (the optimistic-concurrency protocol). -/
def saveSeq (rn idStr insee : String) (data : List (String × String))
    (sess : Option Nat) (reg : List (String × List String)) :
    Nat → Except SaveErr (St × VEntity)
  | 0 => .ok (initialSt reg, Versioned.newEntity rn idStr insee data)
  | n + 1 =>
    match saveSeq rn idStr insee data sess reg n with
    | .error e => .error e
    | .ok (s, e) =>
      Versioned.save s sess (if n = 0 then e else Versioned.increment_version e)

/-- The snapshot the sequence stores at sequence `sq` out of `n`: validity
starts at time `sq - 1` and is open exactly for the last one. -/
def expectedSnap (rn : String) (data : List (String × String)) (n sq : Nat) : Snap :=
  { model_name := rn, model_pk := 1, sequential := sq, data := data,
    periodLo := sq - 1, periodHi := if sq = n then none else some sq }

/-- The snapshot table after `n` saves of the sequence. -/
def expectedSnaps (rn : String) (data : List (String × String)) (n : Nat) : List Snap :=
  (List.range' 1 n).map (expectedSnap rn data n)

/-- The in-memory entity after `n` saves of the sequence. -/
def expectedEntity (rn idStr insee : String) (data : List (String × String))
    (sess : Option Nat) (n : Nat) : VEntity :=
  { pk := some 1, resource := rn, idStr := idStr, insee := insee, version := n,
    created_at := some 0, created_by := sess, modified_at := some (n - 1),
    modified_by := sess, locked := some n, dataFields := data }

/-- Filtering a unit range for its last element. -/
lemma range'_filter_last : ∀ (k s : Nat),
    (List.range' s (k + 1)).filter (fun i => i == s + k) = [s + k] := by
  intro k
  induction k with
  | zero => intro s; simp
  | succ k ih =>
    intro s
    rw [List.range'_succ, List.filter_cons]
    have hne : (s == s + (k + 1)) = false := by
      rw [beq_eq_false_iff_ne]
      omega
    rw [hne]
    simp only [Bool.false_eq_true, if_false]
    have := ih (s + 1)
    have harith : s + 1 + k = s + (k + 1) := by omega
    rw [harith] at this
    rw [this]

/-- Every expected snapshot belongs to the entity's model and pk. -/
lemma expectedSnaps_all_match (rn : String) (data : List (String × String)) (n : Nat) :
    ∀ v ∈ expectedSnaps rn data n, (v.model_name == rn && v.model_pk == 1) = true := by
  intro v hv
  obtain ⟨sq, -, rfl⟩ := List.mem_map.mp hv
  simp [expectedSnap]

/-- No expected snapshot carries the about-to-be-created sequence. -/
lemma expectedSnaps_no_next (rn : String) (data : List (String × String)) (n : Nat) :
    (expectedSnaps rn data n).any (fun v =>
      v.model_name == rn && v.model_pk == 1 && v.sequential == n + 1) = false := by
  rw [List.any_eq_false]
  intro v hv
  obtain ⟨sq, hsq, rfl⟩ := List.mem_map.mp hv
  have hb : sq < 1 + n := (List.mem_range'_1.mp hsq).2
  simp only [expectedSnap, Bool.and_eq_true, beq_iff_eq, not_and]
  intro _ _
  omega

/-- The expected snapshots are sorted by their sequence numbers. -/
lemma expectedSnaps_sorted (rn : String) (data : List (String × String)) (n : Nat) :
    List.Pairwise (fun a b : Snap => a.sequential ≤ b.sequential)
      (expectedSnaps rn data n) := by
  rw [expectedSnaps, List.pairwise_map]
  exact (List.pairwise_lt_range' 1 n).imp (fun h => by simp [expectedSnap]; omega)

/-- Chains over a mapped unit range follow from the adjacent relation. -/
lemma chain_map_range' {α : Type} (R : α → α → Prop) (f : Nat → α) :
    ∀ (m s : Nat), (∀ i, s ≤ i → i + 1 < s + m → R (f i) (f (i + 1))) →
    List.Chain' R ((List.range' s m).map f) := by
  intro m
  induction m with
  | zero => intro s _; simp
  | succ m ih =>
    intro s h
    rw [List.range'_succ, List.map_cons]
    rw [List.chain'_cons']
    refine ⟨?_, ih (s + 1) (fun i h1 h2 => h i (by omega) (by omega))⟩
    intro y hy
    cases m with
    | zero => simp at hy
    | succ k =>
      rw [List.range'_succ, List.map_cons] at hy
      simp only [List.head?_cons, Option.mem_def, Option.some.injEq] at hy
      rw [← hy]
      exact h s (by omega) (by omega)

/-- The snapshot freshly created by save number `m + 1` (open period
starting at time `m`). -/
def newSnapAt (rn : String) (data : List (String × String)) (m : Nat) : Snap :=
  { model_name := rn, model_pk := 1, sequential := m + 1, data := data,
    periodLo := m, periodHi := none }

/-- After inserting the new snapshot, the history query returns the rows
unchanged: they all belong to the entity and are already sorted. -/
lemma versionsOf_post (rn : String) (data : List (String × String)) (m : Nat)
    (st : St)
    (hv : st.versions = expectedSnaps rn data m ++ [newSnapAt rn data m]) :
    Versioned.versionsOf st rn 1 = expectedSnaps rn data m ++ [newSnapAt rn data m] := by
  unfold Versioned.versionsOf
  rw [hv]
  rw [List.filter_eq_self.mpr]
  · apply List.Sorted.insertionSort_eq
    rw [List.Sorted, List.pairwise_append]
    refine ⟨expectedSnaps_sorted rn data m, List.pairwise_singleton _ _, ?_⟩
    intro a ha b hb
    obtain ⟨sq, hsq, rfl⟩ := List.mem_map.mp ha
    have h2 : sq < 1 + m := (List.mem_range'_1.mp hsq).2
    rw [List.mem_singleton.mp hb]
    simp only [expectedSnap, newSnapAt]
    omega
  · intro v hv'
    rcases List.mem_append.mp hv' with h | h
    · exact expectedSnaps_all_match rn data m v h
    · rw [List.mem_singleton.mp h]
      simp [newSnapAt]

/-- Among the stored rows, the one at the previous sequence `m` is the
snapshot closed by the save. -/
lemma load_filter (rn : String) (data : List (String × String)) (m : Nat)
    (hm : 1 ≤ m) :
    (expectedSnaps rn data m ++ [newSnapAt rn data m]).filter
        (fun v => v.sequential == m)
      = [expectedSnap rn data m m] := by
  rw [List.filter_append]
  have h2 : [newSnapAt rn data m].filter (fun v => v.sequential == m) = [] := by
    rw [List.filter_singleton]
    have : ((newSnapAt rn data m).sequential == m) = false := by
      rw [beq_eq_false_iff_ne]
      simp only [newSnapAt]
      omega
    rw [this]
    rfl
  rw [h2, List.append_nil]
  rw [expectedSnaps, List.filter_map]
  have hcomp : ((fun v : Snap => v.sequential == m) ∘ expectedSnap rn data m)
      = fun sq => sq == m := rfl
  rw [hcomp]
  obtain ⟨k, rfl⟩ : ∃ k, m = k + 1 := ⟨m - 1, by omega⟩
  have hr := range'_filter_last k 1
  have harith : 1 + k = k + 1 := by omega
  rw [harith] at hr
  rw [hr]
  rfl

/-- Closing the period of the snapshot at sequence `m` inside the table
holding sequences `1..m` plus the new open snapshot at `m + 1` yields
exactly the expected table after `m + 1` saves. -/
lemma close_step (rn : String) (data : List (String × String)) (m : Nat) :
    (expectedSnaps rn data m ++ [newSnapAt rn data m]).map (fun v =>
        if v.model_name == rn && v.model_pk == 1 && v.sequential == m
        then { v with periodHi := some m } else v)
      = expectedSnaps rn data (m + 1) := by
  rw [List.map_append]
  have h2 : [newSnapAt rn data m].map (fun v =>
      if v.model_name == rn && v.model_pk == 1 && v.sequential == m
      then { v with periodHi := some m } else v) = [newSnapAt rn data m] := by
    simp only [List.map_cons, List.map_nil]
    have : ((newSnapAt rn data m).model_name == rn &&
        (newSnapAt rn data m).model_pk == 1 &&
        (newSnapAt rn data m).sequential == m) = false := by
      simp only [newSnapAt, Bool.and_eq_false_iff, beq_eq_false_iff_ne]
      right
      omega
    rw [this]
    simp
  rw [h2]
  have h1 : (expectedSnaps rn data m).map (fun v =>
      if v.model_name == rn && v.model_pk == 1 && v.sequential == m
      then { v with periodHi := some m } else v)
      = (List.range' 1 m).map (expectedSnap rn data (m + 1)) := by
    rw [expectedSnaps, List.map_map]
    refine List.map_congr_left ?_
    intro sq hsq
    obtain ⟨hs1, hs2⟩ := List.mem_range'_1.mp hsq
    simp only [Function.comp]
    by_cases he : sq = m
    · rw [he]
      have hne : ¬(m = m + 1) := by omega
      simp [expectedSnap, hne]
    · have hne : ¬(sq = m + 1) := by omega
      simp [expectedSnap, he, hne]
  rw [h1]
  have h3 : expectedSnaps rn data (m + 1)
      = (List.range' 1 m).map (expectedSnap rn data (m + 1))
        ++ [expectedSnap rn data (m + 1) (1 + m)] := by
    rw [expectedSnaps, List.range'_1_concat, List.map_append, List.map_singleton]
  rw [h3]
  have h4 : expectedSnap rn data (m + 1) (1 + m) = newSnapAt rn data m := by
    have hcm : 1 + m = m + 1 := by omega
    simp [expectedSnap, newSnapAt, hcm]
  rw [h4]

/-- The in-memory entity between `update_meta` and the final
`lock_version` of save number `m + 1`. -/
def midEntity (rn idStr insee : String) (data : List (String × String))
    (sess : Option Nat) (m : Nat) : VEntity :=
  { pk := some 1, resource := rn, idStr := idStr, insee := insee, version := m + 1,
    created_at := some 0, created_by := sess, modified_at := some m,
    modified_by := sess, locked := some m, dataFields := data }

/-- The state right after the entity-row update of save number `m + 1`:
clock advanced by the `utcnow` call, entity row rewritten. -/
def rowSt (s : St) (rn idStr : String) (data : List (String × String)) : St :=
  { s with
    clock := s.clock + 1,
    entities := s.entities.map (fun r =>
      if r.pk == 1 then ⟨1, rn, idStr, data⟩ else r) }

/-- A diff whose change map is empty registers no redirects. -/
lemma Redirect.from_diff_nil (st : St) (d : DiffRec) (h : d.diff = []) :
    Redirect.from_diff st d = st := by
  unfold Redirect.from_diff Redirect.from_diff_adds
  cases hn : d.new with
  | none => rfl
  | some ns =>
    cases ho : d.old with
    | none => rfl
    | some os =>
      rw [h]
      simp

/-- The diff row stored by save number `m + 1`: the closed previous
snapshot against the new one, with an empty change map. -/
def finDiff (rn insee : String) (data : List (String × String)) (m : Nat) : DiffRec :=
  { old := some { expectedSnap rn data m m with periodHi := some m },
    new := some (newSnapAt rn data m),
    diff := [],
    insee := insee, created_at := m }

/-- The database state after save number `m + 1` of the sequence. -/
def finSt (s : St) (rn idStr insee : String) (data : List (String × String))
    (m : Nat) : St :=
  { s with
    clock := s.clock + 1,
    entities := s.entities.map (fun r =>
      if r.pk == 1 then ⟨1, rn, idStr, data⟩ else r),
    versions := expectedSnaps rn data (m + 1),
    diffs := s.diffs ++ [finDiff rn insee data m] }

/-- One more save of the sequence: from the expected state after `m ≥ 1`
saves, the incremented entity saves successfully, appends snapshot
`m + 1`, closes snapshot `m`, and advances clock and baseline. -/
lemma save_step (rn idStr insee : String) (data : List (String × String))
    (sess : Option Nat) (s : St) (m : Nat) (hm : 1 ≤ m)
    (hv : s.versions = expectedSnaps rn data m) (hc : s.clock = m)
    (hd : s.diffActive = true) :
    ∃ s' : St,
      Versioned.save s sess
          (Versioned.increment_version (expectedEntity rn idStr insee data sess m))
        = .ok (s', expectedEntity rn idStr insee data sess (m + 1)) ∧
      s'.versions = expectedSnaps rn data (m + 1) ∧ s'.clock = m + 1 ∧
      s'.diffActive = true := by
  have hE2 : Versioned.update_meta sess s.clock
      (Versioned.increment_version (expectedEntity rn idStr insee data sess m))
      = midEntity rn idStr insee data sess m := by
    cases sess with
    | none =>
      simp [Versioned.update_meta, Versioned.increment_version, expectedEntity,
        midEntity, hc]
    | some a =>
      simp [Versioned.update_meta, Versioned.increment_version, expectedEntity,
        midEntity, hc]
  have hrow : Versioned.rowSave { s with clock := s.clock + 1 }
      (midEntity rn idStr insee data sess m)
      = (rowSt s rn idStr data, midEntity rn idStr insee data sess m) := rfl
  have hcreate : Version.create (rowSt s rn idStr data) (newSnapAt rn data m)
      = .ok { rowSt s rn idStr data with
              versions := expectedSnaps rn data m ++ [newSnapAt rn data m] } := by
    unfold Version.create
    have hvv : (rowSt s rn idStr data).versions = expectedSnaps rn data m := hv
    rw [hvv]
    simp only [newSnapAt]
    rw [expectedSnaps_no_next rn data m]
    rfl
  have hload : Versioned.load_version
      { rowSt s rn idStr data with
        versions := expectedSnaps rn data m ++ [newSnapAt rn data m] }
      (midEntity rn idStr insee data sess m) ((midEntity rn idStr insee data sess m).version - 1)
      = some (expectedSnap rn data m m) := by
    unfold Versioned.load_version
    have h1 : Versioned.versionsOf
        { rowSt s rn idStr data with
          versions := expectedSnaps rn data m ++ [newSnapAt rn data m] }
        (midEntity rn idStr insee data sess m).resource
        ((midEntity rn idStr insee data sess m).pk.getD 0)
        = expectedSnaps rn data m ++ [newSnapAt rn data m] :=
      versionsOf_post rn data m _ rfl
    rw [h1]
    have h2 : (midEntity rn idStr insee data sess m).version - 1 = m := by
      simp [midEntity]
    rw [h2]
    rw [load_filter rn data m hm]
    rfl
  have hclose : Version.close_period_db
      { rowSt s rn idStr data with
        versions := expectedSnaps rn data m ++ [newSnapAt rn data m] }
      (expectedSnap rn data m m) m
      = { rowSt s rn idStr data with versions := expectedSnaps rn data (m + 1) } := by
    unfold Version.close_period_db
    have hvv : ({ rowSt s rn idStr data with
        versions := expectedSnaps rn data m ++ [newSnapAt rn data m] } : St).versions
        = expectedSnaps rn data m ++ [newSnapAt rn data m] := rfl
    rw [hvv]
    have hproj : (fun v : Snap =>
        if v.model_name == (expectedSnap rn data m m).model_name &&
           v.model_pk == (expectedSnap rn data m m).model_pk &&
           v.sequential == (expectedSnap rn data m m).sequential
        then { v with periodHi := some m } else v)
        = (fun v : Snap =>
        if v.model_name == rn && v.model_pk == 1 && v.sequential == m
        then { v with periodHi := some m } else v) := rfl
    rw [hproj, close_step rn data m]
  have hsnap : (
      { model_name := (midEntity rn idStr insee data sess m).resource,
        model_pk := (midEntity rn idStr insee data sess m).pk.getD 0,
        sequential := (midEntity rn idStr insee data sess m).version,
        data := (midEntity rn idStr insee data sess m).dataFields,
        periodLo := (midEntity rn idStr insee data sess m).modified_at.getD 0,
        periodHi := none } : Snap) = newSnapAt rn data m := rfl
  have hstore : Versioned.store_version (rowSt s rn idStr data)
      (midEntity rn idStr insee data sess m)
      = .ok (finSt s rn idStr insee data m) := by
    unfold Versioned.store_version
    rw [hsnap]
    simp only [hcreate]
    have hgt : (midEntity rn idStr insee data sess m).version > 1 := by
      simp only [midEntity]
      omega
    rw [if_pos hgt]
    simp only [hload]
    have hplo : (newSnapAt rn data m).periodLo = m := rfl
    simp only [hplo]
    simp only [hclose]
    have hda : ({ rowSt s rn idStr data with
        versions := expectedSnaps rn data (m + 1) } : St).diffActive = true := hd
    rw [if_pos hda]
    have hsr : Diff.saveRec
        { rowSt s rn idStr data with versions := expectedSnaps rn data (m + 1) }
        { old := some { expectedSnap rn data m m with periodHi := some m },
          new := some (newSnapAt rn data m), diff := [],
          insee := (midEntity rn idStr insee data sess m).insee,
          created_at := (midEntity rn idStr insee data sess m).modified_at.getD 0 }
        = finSt s rn idStr insee data m := by
      unfold Diff.saveRec
      simp only [List.isEmpty_nil, if_true, snapData]
      rw [show (expectedSnap rn data m m).data = data from rfl,
          show (newSnapAt rn data m).data = data from rfl, make_diff_self]
      rw [Redirect.from_diff_nil _ _ rfl]
      rfl
    rw [hsr]
  refine ⟨finSt s rn idStr insee data m, ?_, ?_, ?_, ?_⟩
  · unfold Versioned.save
    have h1 : (Versioned.increment_version
        (expectedEntity rn idStr insee data sess m)).locked = some m := rfl
    simp only [h1]
    have h2 : (Versioned.increment_version
        (expectedEntity rn idStr insee data sess m)).version = m + 1 := rfl
    simp only [h2]
    rw [if_neg (show ¬(m + 1 ≠ m + 1) by omega)]
    rw [hE2, hrow]
    have hfin : (match Versioned.store_version (rowSt s rn idStr data)
          (midEntity rn idStr insee data sess m) with
        | Except.error err => (Except.error err : Except SaveErr (St × VEntity))
        | Except.ok st2 =>
          Except.ok (st2, Versioned.lock_version (midEntity rn idStr insee data sess m)))
        = Except.ok (finSt s rn idStr insee data m,
            expectedEntity rn idStr insee data sess (m + 1)) := by
      rw [hstore]
      rfl
    exact hfin
  · rfl
  · rw [show (finSt s rn idStr insee data m).clock = s.clock + 1 from rfl, hc]
  · exact hd


/-- The state and entity after `n ≥ 1` saves of the canonical sequence:
every save succeeds, the entity's version and baseline equal `n`, and the
snapshot table is exactly the expected one. -/
lemma saveSeq_spec (rn idStr insee : String) (data : List (String × String))
    (sess : Option Nat) (reg : List (String × List String)) :
    ∀ n, 1 ≤ n → ∃ s : St,
      saveSeq rn idStr insee data sess reg n
        = .ok (s, expectedEntity rn idStr insee data sess n) ∧
      s.versions = expectedSnaps rn data n ∧ s.clock = n ∧ s.diffActive = true := by
  intro n
  induction n with
  | zero => intro h; exact absurd h (by omega)
  | succ m ih =>
    intro _
    by_cases hm : m = 0
    · subst hm
      cases sess with
      | none => exact ⟨_, rfl, rfl, rfl, rfl⟩
      | some a => exact ⟨_, rfl, rfl, rfl, rfl⟩
    · obtain ⟨s, hEq, hv, hc, hd⟩ := ih (by omega)
      obtain ⟨s', h1, h2, h3, h4⟩ :=
        save_step rn idStr insee data sess s m (by omega) hv hc hd
      refine ⟨s', ?_, h2, h3, h4⟩
      simp only [saveSeq, hEq]
      rw [if_neg hm]
      exact h1

/-- The history query on the expected snapshot table returns it as-is:
all rows belong to the entity and are already in ascending sequence
order. -/
lemma versionsOf_expected (rn : String) (data : List (String × String)) (n : Nat)
    (st : St) (hv : st.versions = expectedSnaps rn data n) :
    Versioned.versionsOf st rn 1 = expectedSnaps rn data n := by
  unfold Versioned.versionsOf
  rw [hv, List.filter_eq_self.mpr (expectedSnaps_all_match rn data n)]
  exact List.Sorted.insertionSort_eq (expectedSnaps_sorted rn data n)

/-- The expected snapshots carry the sequence numbers `1..n` in order. -/
lemma expectedSnaps_map_seq (rn : String) (data : List (String × String)) (n : Nat) :
    (expectedSnaps rn data n).map (fun v => v.sequential) = List.range' 1 n := by
  rw [expectedSnaps, List.map_map]
  have hcomp : ((fun v : Snap => v.sequential) ∘ expectedSnap rn data n)
      = fun sq => sq := rfl
  rw [hcomp]
  simp

/-- Consecutive expected snapshots have contiguous validity periods. -/
lemma expectedSnaps_chain (rn : String) (data : List (String × String)) (n : Nat) :
    List.Chain' (fun a b : Snap => a.periodHi = some b.periodLo)
      (expectedSnaps rn data n) := by
  rw [expectedSnaps]
  apply chain_map_range'
  intro i h1 h2
  have hne : ¬(i = n) := by omega
  simp [expectedSnap, hne]

/-- Exactly the last expected snapshot has an open validity period. -/
lemma expectedSnaps_one_open (rn : String) (data : List (String × String)) (n : Nat)
    (hn : 1 ≤ n) :
    (expectedSnaps rn data n).filter (fun v => v.periodHi == none)
      = [expectedSnap rn data n n] := by
  rw [expectedSnaps, List.filter_map]
  have hcong : ∀ sq ∈ List.range' 1 n,
      ((fun v : Snap => v.periodHi == none) ∘ expectedSnap rn data n) sq
        = (sq == n) := by
    intro sq _
    by_cases he : sq = n <;> simp [expectedSnap, he]
  rw [List.filter_congr hcong]
  obtain ⟨k, rfl⟩ : ∃ k, n = k + 1 := ⟨n - 1, by omega⟩
  have hr := range'_filter_last k 1
  have harith : 1 + k = k + 1 := by omega
  rw [harith] at hr
  rw [hr, List.map_singleton]

/-- Every closed expected snapshot has a non-degenerate period. -/
lemma expectedSnaps_lo_lt (rn : String) (data : List (String × String)) (n : Nat) :
    ∀ v ∈ expectedSnaps rn data n, ∀ b, v.periodHi = some b → v.periodLo < b := by
  intro v hv b hb
  obtain ⟨sq, hsq, rfl⟩ := List.mem_map.mp hv
  obtain ⟨h1, h2⟩ := List.mem_range'_1.mp hsq
  simp only [expectedSnap] at hb ⊢
  by_cases he : sq = n
  · rw [if_pos he] at hb; cases hb
  · rw [if_neg he] at hb
    have hbs : b = sq := (Option.some.inj hb).symm
    omega

/-- C2: for every sequence of `n ≥ 1` successful saves of one entity
(each after the first preceded by exactly one version increment), every
save succeeds, the stored version equals `n`, and the history query
returns exactly `n` snapshots with sequence numbers `1..n` ascending,
contiguous non-overlapping validity periods, and exactly one open
(null-bounded) period. -/
theorem save_sequence_history (rn idStr insee : String)
    (data : List (String × String)) (sess : Option Nat)
    (reg : List (String × List String)) (n : Nat) (hn : 1 ≤ n) :
    ∃ s e, saveSeq rn idStr insee data sess reg n = .ok (s, e) ∧
      e.version = n ∧
      (Versioned.versionsOf s rn 1).length = n ∧
      (Versioned.versionsOf s rn 1).map (fun v => v.sequential) = List.range' 1 n ∧
      List.Chain' (fun a b : Snap => a.periodHi = some b.periodLo)
        (Versioned.versionsOf s rn 1) ∧
      ((Versioned.versionsOf s rn 1).filter (fun v => v.periodHi == none)).length = 1 ∧
      (∀ v ∈ Versioned.versionsOf s rn 1, ∀ b, v.periodHi = some b →
        v.periodLo < b) := by
  obtain ⟨s, hEq, hv, hc, hd⟩ := saveSeq_spec rn idStr insee data sess reg n hn
  have hvo := versionsOf_expected rn data n s hv
  refine ⟨s, expectedEntity rn idStr insee data sess n, hEq, rfl, ?_, ?_, ?_, ?_, ?_⟩
  · rw [hvo]
    simp [expectedSnaps]
  · rw [hvo]
    exact expectedSnaps_map_seq rn data n
  · rw [hvo]
    exact expectedSnaps_chain rn data n
  · rw [hvo, expectedSnaps_one_open rn data n hn]
    rfl
  · rw [hvo]
    exact expectedSnaps_lo_lt rn data n

/-- C2 witness: three concrete saves of a municipality succeed, store
version 3, and yield three snapshots with sequences 1..3, contiguous
periods and one open bound. -/
theorem save_sequence_history_witness :
    ∃ s e, saveSeq "municipality" "m1" "75056" [("id", "m1"), ("name", "X")]
        (some 4) [] 3 = .ok (s, e) ∧
      e.version = 3 ∧
      (Versioned.versionsOf s "municipality" 1).length = 3 ∧
      (Versioned.versionsOf s "municipality" 1).map (fun v => v.sequential)
        = List.range' 1 3 ∧
      List.Chain' (fun a b : Snap => a.periodHi = some b.periodLo)
        (Versioned.versionsOf s "municipality" 1) ∧
      ((Versioned.versionsOf s "municipality" 1).filter
        (fun v => v.periodHi == none)).length = 1 ∧
      (∀ v ∈ Versioned.versionsOf s "municipality" 1, ∀ b, v.periodHi = some b →
        v.periodLo < b) :=
  save_sequence_history "municipality" "m1" "75056" [("id", "m1"), ("name", "X")]
    (some 4) [] 3 (by decide)
